import Mathlib

/-!
Verification of the authentication core of the Hamid207/ai-code-test1
backend (Apple/Google sign-in, JWT issuance and rotation, Postgres
refresh-token store, Redis mirror/blacklist/rate-limiter).

The Go sources are shallowly embedded: every function below follows the
control flow of the corresponding Go function; wall-clock reads
(time.Now), database rows and Redis entries are made explicit parameters
and state.  Times are integers (milliseconds for the token/blacklist
components, seconds for the rate limiter, matching each component's own
granularity).  SHA-256 hashing of a serialized token (hashToken in
internal/repository) is modeled as collision-free keying by the token
value itself.
-/

/-- Kind discriminant carried by every self-issued token
(pkg/jwt/token.go: TokenType with constants AccessToken/RefreshToken). -/
inductive TokenKind
  | access
  | refresh
  deriving DecidableEq

/-- JOSE header algorithms that appear in this system's tokens. -/
inductive JwtAlg
  | HS256
  | HS384
  | HS512
  | RS256
  | RS384
  | RS512
  | ES256
  | noAlg
  deriving DecidableEq

/-- The go-jwt check `token.Method.(*jwt.SigningMethodHMAC)`:
any HMAC-family method. -/
def JwtAlg.isHMAC : JwtAlg → Bool
  | .HS256 => true
  | .HS384 => true
  | .HS512 => true
  | _ => false

/-- The go-jwt check `token.Method.(*jwt.SigningMethodRSA)`:
any RSA-PKCS1 family method. -/
def JwtAlg.isRSA : JwtAlg → Bool
  | .RS256 => true
  | .RS384 => true
  | .RS512 => true
  | _ => false

/-- Claims of a self-issued token (pkg/jwt/token.go: TokenClaims).
RegisteredClaims is flattened to the fields the code sets. -/
structure TokenClaims where
  userID : Int
  appleID : String
  email : String
  tokenType : TokenKind
  expiresAt : Int
  issuedAt : Int
  notBefore : Int
  issuer : String
  deriving DecidableEq

/-- Symbolic HMAC signature: records the algorithm, key and signed payload.
Verification succeeds exactly when all three match what the verifier
recomputes, which is how an ideal MAC behaves. -/
structure HmacSig where
  alg : JwtAlg
  key : String
  payload : TokenClaims
  deriving DecidableEq

/-- A self-issued JWT: header algorithm, claims, and optional signature
(`none` models an unsigned token, e.g. alg "none"). -/
structure SelfJwt where
  alg : JwtAlg
  claims : TokenClaims
  sig : Option HmacSig
  deriving DecidableEq

/-- Decidable equality for Except results, used to evaluate the model on
concrete inputs. -/
instance {e a : Type} [DecidableEq e] [DecidableEq a] : DecidableEq (Except e a) := fun x y =>
  match x, y with
  | .error u, .error v =>
      if h : u = v then .isTrue (congrArg Except.error h)
      else .isFalse (fun hc => h (Except.error.inj hc))
  | .error _, .ok _ => .isFalse Except.noConfusion
  | .ok _, .error _ => .isFalse Except.noConfusion
  | .ok u, .ok v =>
      if h : u = v then .isTrue (congrArg Except.ok h)
      else .isFalse (fun hc => h (Except.ok.inj hc))

/-- Issuer string written by generateToken. -/
def selfIssuer : String := "apple-oauth-backend"

/-- Access-token lifetime: 24 hours, in milliseconds (pkg/jwt/token.go). -/
def accessTokenDuration : Int := 24 * 60 * 60 * 1000

/-- Refresh-token lifetime: 7 days, in milliseconds (pkg/jwt/token.go). -/
def refreshTokenDuration : Int := 7 * 24 * 60 * 60 * 1000

/-- TokenService.generateToken: builds claims at `now`, signs with HS256
under the service secret. Returns the token and its expiry. -/
def generateToken (secret : String) (now : Int) (userID : Int)
    (appleID email : String) (kind : TokenKind) (duration : Int) :
    SelfJwt × Int :=
  let expiresAt := now + duration
  let claims : TokenClaims :=
    ⟨userID, appleID, email, kind, expiresAt, now, now, selfIssuer⟩
  (⟨JwtAlg.HS256, claims, some ⟨JwtAlg.HS256, secret, claims⟩⟩, expiresAt)

/-- Result of TokenService.GenerateTokenPair. -/
structure TokenPair where
  accessToken : SelfJwt
  refreshToken : SelfJwt
  accessTokenExpiresAt : Int
  refreshTokenExpiresAt : Int
  deriving DecidableEq

/-- TokenService.GenerateTokenPair: a 24h access token and a 7d refresh
token, both minted at `now`. -/
def generateTokenPair (secret : String) (now : Int) (userID : Int)
    (appleID email : String) : TokenPair :=
  let a := generateToken secret now userID appleID email .access accessTokenDuration
  let r := generateToken secret now userID appleID email .refresh refreshTokenDuration
  ⟨a.1, r.1, a.2, r.2⟩

/-- Errors of token validation (pkg/jwt/token.go). -/
inductive JwtErr
  | badMethod
  | badSignature
  | tokenExpired
  | notYetValid
  | notRefresh
  deriving DecidableEq

/-- TokenService.ValidateToken: the key function accepts only HMAC-family
methods, the library then verifies the signature and the registered
claims (exp, nbf).  No check of the kind discriminant is performed. -/
def validateToken (secret : String) (now : Int) (t : SelfJwt) :
    Except JwtErr TokenClaims :=
  if ¬ t.alg.isHMAC then .error .badMethod
  else if t.sig ≠ some ⟨t.alg, secret, t.claims⟩ then .error .badSignature
  else if t.claims.expiresAt ≤ now then .error .tokenExpired
  else if now < t.claims.notBefore then .error .notYetValid
  else .ok t.claims

/-- TokenService.ValidateRefreshToken: ValidateToken, then require the
kind discriminant to be `refresh`. -/
def validateRefreshToken (secret : String) (now : Int) (t : SelfJwt) :
    Except JwtErr TokenClaims :=
  match validateToken secret now t with
  | .error e => .error e
  | .ok claims =>
      if claims.tokenType ≠ TokenKind.refresh then .error .notRefresh
      else .ok claims

/-- Claim C3: round-trip mint-then-validate.  Validating the refresh token
of GenerateTokenPair(userID, providerSubject, email) at any instant inside
its validity window returns claims whose UserID is the original userID. -/
theorem c3_mint_validate_roundtrip (secret : String) (now t : Int)
    (userID : Int) (providerSubject email : String)
    (h1 : now ≤ t) (h2 : t < now + refreshTokenDuration) :
    ∃ c, validateRefreshToken secret t
        (generateTokenPair secret now userID providerSubject email).refreshToken
        = .ok c ∧ c.userID = userID := by
  have hA : ¬ (now + refreshTokenDuration ≤ t) := not_le.mpr h2
  have hB : ¬ (t < now) := not_lt.mpr h1
  refine ⟨⟨userID, providerSubject, email, .refresh, now + refreshTokenDuration,
    now, now, selfIssuer⟩, ?_, rfl⟩
  simp only [validateRefreshToken, validateToken, generateTokenPair, generateToken,
    JwtAlg.isHMAC]
  norm_num [hA, hB]

/-- Claim C3 witness: round-trip at concrete inputs (mint at 0 for user 5,
validate at instant 0). -/
theorem c3_mint_validate_roundtrip_witness :
    (0 : Int) ≤ 0 ∧ (0 : Int) < 0 + refreshTokenDuration ∧
    ∃ c, validateRefreshToken "k" 0
        (generateTokenPair "k" 0 5 "sub0001" "a@x.com").refreshToken
        = .ok c ∧ c.userID = 5 :=
  ⟨le_refl 0, by norm_num [refreshTokenDuration],
    c3_mint_validate_roundtrip "k" 0 0 5 "sub0001" "a@x.com" (le_refl 0)
      (by norm_num [refreshTokenDuration])⟩

/-- Claim C4 counterexample: ValidateToken — the only access-side validation
in the code — accepts a freshly minted refresh token, so a token of kind
refresh IS accepted where an access credential is required. -/
theorem c4_access_validation_accepts_refresh_cex :
    (generateTokenPair "k" 0 1 "sub0001" "a@x.com").refreshToken.claims.tokenType
      = TokenKind.refresh ∧
    validateToken "k" 0 (generateTokenPair "k" 0 1 "sub0001" "a@x.com").refreshToken
      = .ok (generateTokenPair "k" 0 1 "sub0001" "a@x.com").refreshToken.claims := by
  constructor
  · rfl
  · decide

/-- Claim C4 (amended): every issued token carries the kind discriminant,
and ValidateRefreshToken rejects every token whose kind is access; but
ValidateToken — used as the access-side validation — checks no kind
discriminant and accepts a freshly minted, unexpired refresh token. -/
theorem c4_kind_discriminant_amended :
    (∀ (secret : String) (now : Int) (t : SelfJwt),
      t.claims.tokenType = TokenKind.access →
      ∀ c, validateRefreshToken secret now t ≠ .ok c) ∧
    (∀ (secret : String) (now : Int) (userID : Int) (sub email : String),
      validateToken secret now
        (generateTokenPair secret now userID sub email).refreshToken
        = .ok (generateTokenPair secret now userID sub email).refreshToken.claims) := by
  constructor
  · intro secret now t ht c h
    simp only [validateRefreshToken] at h
    split at h
    · exact absurd h (by simp)
    · rename_i claims heq
      have hc : claims = t.claims := by
        simp only [validateToken] at heq
        split at heq
        · exact absurd heq (by simp)
        · split at heq
          · exact absurd heq (by simp)
          · split at heq
            · exact absurd heq (by simp)
            · split at heq
              · exact absurd heq (by simp)
              · exact (Except.ok.inj heq).symm
      rw [hc, ht] at h
      simp at h
  · intro secret now userID sub email
    have hA : ¬ (now + refreshTokenDuration ≤ now) := by
      simp only [refreshTokenDuration]; omega
    have hB : ¬ (now < now) := lt_irrefl now
    simp only [validateToken, generateTokenPair, generateToken, JwtAlg.isHMAC]
    norm_num [hA, hB]

/-- Claim C4 amended witness: the access token minted at 0 for user 1 is of
kind access and is rejected by ValidateRefreshToken. -/
theorem c4_kind_discriminant_amended_witness :
    (generateTokenPair "k" 0 1 "sub0001" "a@x.com").accessToken.claims.tokenType
      = TokenKind.access ∧
    validateRefreshToken "k" 0 (generateTokenPair "k" 0 1 "sub0001" "a@x.com").accessToken
      ≠ .ok (generateTokenPair "k" 0 1 "sub0001" "a@x.com").accessToken.claims :=
  ⟨rfl, c4_kind_discriminant_amended.1 "k" 0 _ rfl _⟩

/-- A refresh_tokens row (migrations/002; internal/repository/token_repository
scans user_id, expires_at, revoked_at and stamps last_used_at). -/
structure RefreshRow where
  userID : Int
  expiresAt : Int
  revokedAt : Option Int
  lastUsedAt : Option Int
  deriving DecidableEq

/-- The refresh_tokens table: an association list keyed by token hash.  The
token_hash column is UNIQUE (migration 002); SHA-256 of the serialized token
is modeled as collision-free keying by the token value itself. -/
abbrev PgDb := List (SelfJwt × RefreshRow)

/-- SELECT ... WHERE token_hash = hash(t): first row with the given key. -/
def pgLookup : PgDb → SelfJwt → Option RefreshRow
  | [], _ => none
  | (k, r) :: rest, t => if k = t then some r else pgLookup rest t

/-- UPDATE ... WHERE token_hash = hash(t): rewrite every row with the given
key (at most one, by the unique constraint). -/
def pgSetRow : PgDb → SelfJwt → (RefreshRow → RefreshRow) → PgDb
  | [], _, _ => []
  | (k, r) :: rest, t, f =>
      if k = t then (k, f r) :: pgSetRow rest t f
      else (k, r) :: pgSetRow rest t f

/-- Errors surfaced by the Postgres token repository. -/
inductive PgErr
  | uniqueViolation
  | notFound
  | revoked
  | expired
  | notFoundOrRevoked
  deriving DecidableEq

/-- TokenRepository.StoreRefreshToken (Postgres): a plain INSERT of
(user_id, token_hash, expires_at); a duplicate hash violates the UNIQUE
constraint.  Note: no expiry check is performed here. -/
def pgStoreRefreshToken (db : PgDb) (userID : Int) (token : SelfJwt)
    (expiresAt : Int) : Except PgErr PgDb :=
  match pgLookup db token with
  | some _ => .error .uniqueViolation
  | none => .ok ((token, ⟨userID, expiresAt, none, none⟩) :: db)

/-- TokenRepository.ValidateRefreshToken (Postgres): row lookup by hash,
then the revoked check, then the expiry check (in this order); on success
last_used_at is stamped and the user id returned. -/
def pgValidateRefreshToken (db : PgDb) (now : Int) (token : SelfJwt) :
    Except PgErr (Int × PgDb) :=
  match pgLookup db token with
  | none => .error .notFound
  | some row =>
      if row.revokedAt.isSome then .error .revoked
      else if row.expiresAt < now then .error .expired
      else .ok (row.userID,
          pgSetRow db token (fun r => { r with lastUsedAt := some now }))

/-- TokenRepository.RevokeRefreshToken (Postgres): UPDATE setting revoked_at
WHERE token_hash matches AND revoked_at IS NULL; zero affected rows is the
not-found-or-already-revoked error. -/
def pgRevokeRefreshToken (db : PgDb) (now : Int) (token : SelfJwt) :
    Except PgErr PgDb :=
  match pgLookup db token with
  | none => .error .notFoundOrRevoked
  | some row =>
      if row.revokedAt.isSome then .error .notFoundOrRevoked
      else .ok (pgSetRow db token (fun r => { r with revokedAt := some now }))

/-- Errors of AuthService.RefreshAccessToken, tagged by the wrapping
message used in internal/service/auth_service.go. -/
inductive AuthErr
  | invalidRefreshToken (e : JwtErr)
  | validationFailed (e : PgErr)
  | userIDMismatch
  | revokeFailed (e : PgErr)
  | storeFailed (e : PgErr)
  deriving DecidableEq

/-- AuthService.RefreshAccessToken: stateless JWT validation, durable-store
validation, user-id cross-check, revocation of the old token, minting of the
new pair, storing of the new refresh token.  Returns the response (or the
error) together with the resulting database state. -/
def refreshAccessToken (secret : String) (db : PgDb) (now : Int)
    (token : SelfJwt) : Except AuthErr TokenPair × PgDb :=
  match validateRefreshToken secret now token with
  | .error e => (.error (.invalidRefreshToken e), db)
  | .ok claims =>
      match pgValidateRefreshToken db now token with
      | .error e => (.error (.validationFailed e), db)
      | .ok (userID, db1) =>
          if userID ≠ claims.userID then (.error .userIDMismatch, db1)
          else
            match pgRevokeRefreshToken db1 now token with
            | .error e => (.error (.revokeFailed e), db1)
            | .ok db2 =>
                let pair := generateTokenPair secret now claims.userID
                    claims.appleID claims.email
                match pgStoreRefreshToken db2 userID pair.refreshToken
                    pair.refreshTokenExpiresAt with
                | .error e => (.error (.storeFailed e), db2)
                | .ok db3 => (.ok pair, db3)

theorem pgLookup_setRow_self (db : PgDb) (t : SelfJwt)
    (f : RefreshRow → RefreshRow) :
    pgLookup (pgSetRow db t f) t = (pgLookup db t).map f := by
  induction db with
  | nil => rfl
  | cons hd rest ih =>
      obtain ⟨k, r⟩ := hd
      by_cases h : k = t
      · simp [pgSetRow, pgLookup, h]
      · simp [pgSetRow, pgLookup, h, ih]

theorem validateToken_ok_inv {secret : String} {now : Int} {t : SelfJwt}
    {c : TokenClaims} (h : validateToken secret now t = .ok c) :
    c = t.claims ∧ t.alg.isHMAC = true ∧
    t.sig = some ⟨t.alg, secret, t.claims⟩ ∧
    now < t.claims.expiresAt ∧ t.claims.notBefore ≤ now := by
  simp only [validateToken] at h
  split at h
  · exact absurd h (by simp)
  · rename_i h1
    split at h
    · exact absurd h (by simp)
    · rename_i h2
      split at h
      · exact absurd h (by simp)
      · rename_i h3
        split at h
        · exact absurd h (by simp)
        · rename_i h4
          refine ⟨(Except.ok.inj h).symm, by simpa using h1, by simpa using h2,
            not_le.mp h3, not_lt.mp h4⟩

theorem validateToken_eq_ok {secret : String} {now : Int} {t : SelfJwt}
    (h1 : t.alg.isHMAC = true) (h2 : t.sig = some ⟨t.alg, secret, t.claims⟩)
    (h3 : now < t.claims.expiresAt) (h4 : t.claims.notBefore ≤ now) :
    validateToken secret now t = .ok t.claims := by
  simp only [validateToken]
  rw [if_neg (by simp [h1]), if_neg (by simp [h2]),
    if_neg (not_le.mpr h3), if_neg (not_lt.mpr h4)]

theorem validateRefreshToken_ok_inv {secret : String} {now : Int}
    {t : SelfJwt} {c : TokenClaims}
    (h : validateRefreshToken secret now t = .ok c) :
    c = t.claims ∧ t.alg.isHMAC = true ∧
    t.sig = some ⟨t.alg, secret, t.claims⟩ ∧
    now < t.claims.expiresAt ∧ t.claims.notBefore ≤ now ∧
    t.claims.tokenType = TokenKind.refresh := by
  simp only [validateRefreshToken] at h
  split at h
  · exact absurd h (by simp)
  · rename_i claims heq
    have hv := validateToken_ok_inv heq
    split at h
    · exact absurd h (by simp)
    · rename_i hkind
      obtain ⟨hc, hhmac, hsig, hexp, hnbf⟩ := hv
      refine ⟨(Except.ok.inj h).symm.trans hc, hhmac, hsig, hexp, hnbf, ?_⟩
      rw [← hc]
      simpa using hkind

theorem validateRefreshToken_eq_ok {secret : String} {now : Int} {t : SelfJwt}
    (h1 : t.alg.isHMAC = true) (h2 : t.sig = some ⟨t.alg, secret, t.claims⟩)
    (h3 : now < t.claims.expiresAt) (h4 : t.claims.notBefore ≤ now)
    (h5 : t.claims.tokenType = TokenKind.refresh) :
    validateRefreshToken secret now t = .ok t.claims := by
  simp only [validateRefreshToken, validateToken_eq_ok h1 h2 h3 h4]
  simp [h5]

theorem pgValidateRefreshToken_ok_inv {db : PgDb} {now : Int} {t : SelfJwt}
    {u : Int} {db' : PgDb}
    (h : pgValidateRefreshToken db now t = .ok (u, db')) :
    ∃ row, pgLookup db t = some row ∧ row.revokedAt = none ∧
      ¬ (row.expiresAt < now) ∧ u = row.userID ∧
      db' = pgSetRow db t (fun r => { r with lastUsedAt := some now }) := by
  simp only [pgValidateRefreshToken] at h
  split at h
  · exact absurd h (by simp)
  · rename_i row hrow
    split at h
    · exact absurd h (by simp)
    · rename_i hrev
      split at h
      · exact absurd h (by simp)
      · rename_i hexp
        have hinj := Prod.mk.injEq .. ▸ Except.ok.inj h
        exact ⟨row, hrow, Option.not_isSome_iff_eq_none.mp (by simpa using hrev),
          hexp, hinj.1.symm, hinj.2.symm⟩

theorem pgRevokeRefreshToken_ok_inv {db : PgDb} {now : Int} {t : SelfJwt}
    {db' : PgDb} (h : pgRevokeRefreshToken db now t = .ok db') :
    ∃ row, pgLookup db t = some row ∧ row.revokedAt = none ∧
      db' = pgSetRow db t (fun r => { r with revokedAt := some now }) := by
  simp only [pgRevokeRefreshToken] at h
  split at h
  · exact absurd h (by simp)
  · rename_i row hrow
    split at h
    · exact absurd h (by simp)
    · rename_i hrev
      exact ⟨row, hrow, Option.not_isSome_iff_eq_none.mp (by simpa using hrev),
        (Except.ok.inj h).symm⟩

theorem pgStoreRefreshToken_ok_inv {db : PgDb} {u : Int} {tok : SelfJwt}
    {exp : Int} {db' : PgDb}
    (h : pgStoreRefreshToken db u tok exp = .ok db') :
    pgLookup db tok = none ∧ db' = (tok, ⟨u, exp, none, none⟩) :: db := by
  simp only [pgStoreRefreshToken] at h
  split at h
  · exact absurd h (by simp)
  · rename_i hnone
    exact ⟨hnone, (Except.ok.inj h).symm⟩

/-- Claim C1: once RefreshAccessToken(t) has succeeded, a second call with
the same token t — at any later instant still inside t's own validity
window — fails with the revoked error from the durable store, and never
returns a second token pair. -/
theorem c1_rotation_reuse_rejected (secret : String) (db db1 : PgDb)
    (now1 now2 : Int) (t : SelfJwt) (pair : TokenPair)
    (hfirst : refreshAccessToken secret db now1 t = (.ok pair, db1))
    (hnbf : t.claims.notBefore ≤ now2) (hexp : now2 < t.claims.expiresAt) :
    (refreshAccessToken secret db1 now2 t).1
      = .error (.validationFailed .revoked) ∧
    ∀ p, (refreshAccessToken secret db1 now2 t).1 ≠ .ok p := by
  simp only [refreshAccessToken] at hfirst
  split at hfirst
  · exact absurd hfirst (by simp)
  · rename_i claims heqv
    split at hfirst
    · exact absurd hfirst (by simp)
    · rename_i uid db1' heqpv
      split at hfirst
      · exact absurd hfirst (by simp)
      · rename_i huid
        split at hfirst
        · exact absurd hfirst (by simp)
        · rename_i db2 heqrv
          split at hfirst
          · exact absurd hfirst (by simp)
          · rename_i db3 heqst
            have hdb1 : db1 = db3 := (congrArg Prod.snd hfirst).symm
            obtain ⟨hcl, hhmac, hsig, _, _, hkind⟩ :=
              validateRefreshToken_ok_inv heqv
            obtain ⟨row0, hlk0, hrev0, hexp0, huid0, hdb1'⟩ :=
              pgValidateRefreshToken_ok_inv heqpv
            obtain ⟨row1, hlk1, hrev1, hdb2⟩ :=
              pgRevokeRefreshToken_ok_inv heqrv
            obtain ⟨hfresh, hdb3⟩ := pgStoreRefreshToken_ok_inv heqst
            -- the revoked row is still the row of t in db2
            have hlk2 : pgLookup db2 t
                = some { row1 with revokedAt := some now1 } := by
              rw [hdb2, pgLookup_setRow_self, hlk1]
              rfl
            -- the freshly stored token cannot collide with t
            have hne : (generateTokenPair secret now1 claims.userID
                claims.appleID claims.email).refreshToken ≠ t := by
              intro hcoll
              rw [hcoll] at hfresh
              rw [hfresh] at hlk2
              exact absurd hlk2 (by simp)
            have hlk3 : pgLookup db1 t
                = some { row1 with revokedAt := some now1 } := by
              rw [hdb1, hdb3]
              simp only [pgLookup]
              rw [if_neg hne]
              exact hlk2
            have hval2 : validateRefreshToken secret now2 t = .ok t.claims :=
              validateRefreshToken_eq_ok hhmac hsig hexp hnbf hkind
            constructor
            · simp only [refreshAccessToken, hval2, pgValidateRefreshToken, hlk3]
              simp
            · intro p
              simp only [refreshAccessToken, hval2, pgValidateRefreshToken, hlk3]
              simp

/-- Demo data for the rotation scenario: a refresh token minted at -1000
for user 7, with its durable-store row. -/
def rotDemoToken : SelfJwt :=
  (generateTokenPair "k" (-1000) 7 "sub0001" "a@x.com").refreshToken

/-- Durable store holding exactly the demo token's row. -/
def rotDemoDb : PgDb :=
  [(rotDemoToken, ⟨7, rotDemoToken.claims.expiresAt, none, none⟩)]

/-- The pair minted by the first (successful) refresh call at instant 0. -/
def rotDemoPair : TokenPair := generateTokenPair "k" 0 7 "sub0001" "a@x.com"

/-- Durable store state after the first refresh call. -/
def rotDemoDb1 : PgDb := (refreshAccessToken "k" rotDemoDb 0 rotDemoToken).2

/-- Claim C1 witness: the concrete rotation scenario — first call at 0
succeeds, second call at 1 fails with the revoked error. -/
theorem c1_rotation_reuse_rejected_witness :
    refreshAccessToken "k" rotDemoDb 0 rotDemoToken = (.ok rotDemoPair, rotDemoDb1) ∧
    rotDemoToken.claims.notBefore ≤ 1 ∧ (1 : Int) < rotDemoToken.claims.expiresAt ∧
    (refreshAccessToken "k" rotDemoDb1 1 rotDemoToken).1
      = .error (.validationFailed .revoked) :=
  ⟨by decide, by decide, by decide,
    (c1_rotation_reuse_rejected "k" rotDemoDb rotDemoDb1 0 1 rotDemoToken
      rotDemoPair (by decide) (by decide) (by decide)).1⟩

/-- A genuine refresh token for user 1, minted at instant 0. -/
def mismatchToken : SelfJwt :=
  (generateTokenPair "k" 0 1 "sub0001" "a@x.com").refreshToken

/-- A durable store whose row for that token names user 2 instead. -/
def mismatchDb : PgDb :=
  [(mismatchToken, ⟨2, mismatchToken.claims.expiresAt, none, none⟩)]

/-- Claim C2 counterexample: the token is valid in the durable store at call
time (the store validation itself succeeds on it), yet RefreshAccessToken
returns the user-id-mismatch error and leaves the record unrevoked, so the
return leaves t still valid. -/
theorem c2_revoked_on_every_return_cex :
    (∃ u db', pgValidateRefreshToken mismatchDb 0 mismatchToken = .ok (u, db')) ∧
    (refreshAccessToken "k" mismatchDb 0 mismatchToken).1 = .error .userIDMismatch ∧
    (pgLookup (refreshAccessToken "k" mismatchDb 0 mismatchToken).2 mismatchToken).map
      (fun r => r.revokedAt) = some none :=
  ⟨⟨2, (refreshAccessToken "k" mismatchDb 0 mismatchToken).2, by decide⟩,
    by decide, by decide⟩

/-- Claim C2 (amended): for every call RefreshAccessToken(t) where t passes
stateless refresh-token validation, is valid in the durable store, and the
stored user id matches the token's embedded user id, the record of t is
marked revoked by the time the call returns, whether the call returns a new
token pair or an error. -/
theorem c2_revoked_on_every_return_amended (secret : String) (db : PgDb)
    (now : Int) (t : SelfJwt) (row : RefreshRow)
    (hjwt : validateRefreshToken secret now t = .ok t.claims)
    (hrow : pgLookup db t = some row)
    (hunrev : row.revokedAt = none)
    (hunexp : ¬ (row.expiresAt < now))
    (hmatch : row.userID = t.claims.userID) :
    (pgLookup (refreshAccessToken secret db now t).2 t).map (fun r => r.revokedAt)
      = some (some now) := by
  have hlk1 : pgLookup (pgSetRow db t (fun r => { r with lastUsedAt := some now })) t
      = some { row with lastUsedAt := some now } := by
    rw [pgLookup_setRow_self, hrow]; rfl
  have hpv : pgValidateRefreshToken db now t
      = .ok (row.userID, pgSetRow db t (fun r => { r with lastUsedAt := some now })) := by
    simp only [pgValidateRefreshToken, hrow, hunrev]
    simp [hunexp]
  have hrv : pgRevokeRefreshToken
      (pgSetRow db t (fun r => { r with lastUsedAt := some now })) now t
      = .ok (pgSetRow (pgSetRow db t (fun r => { r with lastUsedAt := some now })) t
          (fun r => { r with revokedAt := some now })) := by
    simp only [pgRevokeRefreshToken, hlk1]
    simp [hunrev]
  have hlk2 : pgLookup
      (pgSetRow (pgSetRow db t (fun r => { r with lastUsedAt := some now })) t
        (fun r => { r with revokedAt := some now })) t
      = some { row with lastUsedAt := some now, revokedAt := some now } := by
    rw [pgLookup_setRow_self, hlk1]; rfl
  simp only [refreshAccessToken, hjwt, hpv]
  rw [if_neg (by simp [hmatch])]
  simp only [hrv]
  split
  · rename_i e heq
    simp [hlk2]
  · rename_i db3 heq
    obtain ⟨hfresh, hdb3⟩ := pgStoreRefreshToken_ok_inv heq
    have hne : (generateTokenPair secret now t.claims.userID t.claims.appleID
        t.claims.email).refreshToken ≠ t := by
      intro hc
      rw [hc] at hfresh
      exact Option.noConfusion (hlk2.symm.trans hfresh)
    rw [hdb3]
    simp only [pgLookup]
    rw [if_neg hne]
    simp [hlk2]

/-- Claim C2 amended witness: the concrete rotation scenario satisfies the
amended hypotheses, and after the call the row of the old token carries
revoked_at = 0. -/
theorem c2_revoked_on_every_return_amended_witness :
    validateRefreshToken "k" 0 rotDemoToken = .ok rotDemoToken.claims ∧
    pgLookup rotDemoDb rotDemoToken
      = some ⟨7, rotDemoToken.claims.expiresAt, none, none⟩ ∧
    (pgLookup (refreshAccessToken "k" rotDemoDb 0 rotDemoToken).2 rotDemoToken).map
      (fun r => r.revokedAt) = some (some 0) :=
  ⟨by decide, by decide,
    c2_revoked_on_every_return_amended "k" rotDemoDb 0 rotDemoToken
      ⟨7, rotDemoToken.claims.expiresAt, none, none⟩
      (by decide) (by decide) (by decide) (by decide) (by decide)⟩

/-- Symbolic RSA signature over claims of type C: records the algorithm,
the signing key pair, and the signed payload; verification against a
public key succeeds exactly when all three match. -/
structure RsaSig (C : Type) where
  alg : JwtAlg
  key : String
  payload : C
  deriving DecidableEq

/-- A provider-issued identity token: header algorithm and key id, claims,
and optional signature (`none` models an unsigned token, e.g. alg none). -/
structure IdJwt (C : Type) where
  alg : JwtAlg
  kid : Option String
  claims : C
  sig : Option (RsaSig C)
  deriving DecidableEq

/-- Claims of an Apple identity token (pkg/apple/verifier.go: AppleClaims). -/
structure AppleClaims where
  issuer : String
  audience : List String
  expiresAt : Option Int
  subject : String
  email : String
  emailVerified : String
  nonce : String
  deriving DecidableEq

/-- Claims of a Google identity token (pkg/google: GoogleClaims). -/
structure GoogleClaims where
  issuer : String
  audience : List String
  expiresAt : Option Int
  subject : String
  email : String
  emailVerified : Bool
  deriving DecidableEq

/-- Apple's issuer string (pkg/apple/verifier.go). -/
def appleIssuer : String := "https://appleid.apple.com"

/-- Google's first accepted issuer string. -/
def googleIssuer1 : String := "https://accounts.google.com"

/-- Google's second accepted issuer string. -/
def googleIssuer2 : String := "accounts.google.com"

/-- Verification errors of the identity verifiers; the first five arise
inside jwt.ParseWithClaims and surface as the parse failure. -/
inductive VerifyErr
  | badMethod
  | kidMissing
  | keyNotFound
  | badSignature
  | expiredDuringParse
  | invalidIssuer
  | invalidAudience
  | expired
  | nonceMismatch
  | emailNotVerified
  deriving DecidableEq

/-- The jwt library's expiry validation during parsing: fails when an exp
claim is present and not in the future. -/
def numericDateExpired (exp : Option Int) (now : Int) : Bool :=
  match exp with
  | some e => decide (e ≤ now)
  | none => false

/-- VerifyExpiresAt(now, true): requires an exp claim lying in the future. -/
def verifyExpiresAtReq (exp : Option Int) (now : Int) : Bool :=
  match exp with
  | some e => decide (now < e)
  | none => false

/-- The Google verifier's own expiry check:
claims.ExpiresAt == nil || claims.ExpiresAt.Time.Before(now). -/
def googleExpiryInvalid (exp : Option Int) (now : Int) : Bool :=
  match exp with
  | some e => decide (e < now)
  | none => true

/-- apple.Verifier.VerifyIDToken: the key function accepts only RSA-family
methods, requires a kid, looks the public key up in the (refreshed) key
cache; the library verifies the signature and the registered claims; the
verifier then checks issuer, audience, expiry and nonce.  The key cache —
refreshed over the network — is the ambient map `keys`. -/
def verifyAppleIDToken (clientID : String) (keys : String → Option String)
    (now : Int) (t : IdJwt AppleClaims) (expectedNonce : String) :
    Except VerifyErr AppleClaims :=
  if ¬ t.alg.isRSA then .error .badMethod
  else
    match t.kid with
    | none => .error .kidMissing
    | some kid =>
        match keys kid with
        | none => .error .keyNotFound
        | some pk =>
            if t.sig ≠ some ⟨t.alg, pk, t.claims⟩ then .error .badSignature
            else if numericDateExpired t.claims.expiresAt now then
              .error .expiredDuringParse
            else if t.claims.issuer ≠ appleIssuer then .error .invalidIssuer
            else if ¬ clientID ∈ t.claims.audience then .error .invalidAudience
            else if ¬ verifyExpiresAtReq t.claims.expiresAt now then .error .expired
            else if expectedNonce ≠ "" ∧ t.claims.nonce ≠ expectedNonce then
              .error .nonceMismatch
            else .ok t.claims

/-- google.Verifier.VerifyIDToken: same parsing stage; the verifier then
checks the two accepted issuers, the audience list, expiry and the
email_verified flag. -/
def verifyGoogleIDToken (clientID : String) (keys : String → Option String)
    (now : Int) (t : IdJwt GoogleClaims) : Except VerifyErr GoogleClaims :=
  if ¬ t.alg.isRSA then .error .badMethod
  else
    match t.kid with
    | none => .error .kidMissing
    | some kid =>
        match keys kid with
        | none => .error .keyNotFound
        | some pk =>
            if t.sig ≠ some ⟨t.alg, pk, t.claims⟩ then .error .badSignature
            else if numericDateExpired t.claims.expiresAt now then
              .error .expiredDuringParse
            else if t.claims.issuer ≠ googleIssuer1 ∧ t.claims.issuer ≠ googleIssuer2 then
              .error .invalidIssuer
            else if ¬ clientID ∈ t.claims.audience then .error .invalidAudience
            else if googleExpiryInvalid t.claims.expiresAt now then .error .expired
            else if ¬ t.claims.emailVerified then .error .emailNotVerified
            else .ok t.claims

/-- Apple claims of a demonstration token, valid for client "client1". -/
def rs384Claims : AppleClaims :=
  ⟨appleIssuer, ["client1"], some 1000, "001.abc", "a@x.com", "true", "n1"⟩

/-- A demonstration token whose header declares RS384 — not the single
algorithm (RS256) that Apple publishes for its keys — properly signed
under the provider key pair with RS384. -/
def rs384Token : IdJwt AppleClaims :=
  ⟨JwtAlg.RS384, some "kid1", rs384Claims, some ⟨JwtAlg.RS384, "appleKeyPair", rs384Claims⟩⟩

/-- A key cache holding the provider key pair under kid1. -/
def demoKeys : String → Option String :=
  fun k => if k = "kid1" then some "appleKeyPair" else none

/-- Claim C5 counterexample: an assertion declaring RS384 — an algorithm
other than the provider's single declared one — passes VerifyIDToken
instead of failing with a signature-class error: the code only checks
membership in the RSA family, not the declared algorithm. -/
theorem c5_alg_confusion_cex :
    rs384Token.alg ≠ JwtAlg.RS256 ∧
    verifyAppleIDToken "client1" demoKeys 0 rs384Token "n1" = .ok rs384Claims := by
  constructor
  · decide
  · decide

/-- Claim C5 (amended): for every identity assertion whose header declares
an algorithm outside the RSA family — including none and the HMAC and
ECDSA algorithms — VerifyIDToken fails with the signature-class bad-method
error, for both the Apple and the Google verifier. -/
theorem c5_non_rsa_alg_rejected_amended :
    (∀ (clientID : String) (keys : String → Option String) (now : Int)
      (t : IdJwt AppleClaims) (expectedNonce : String),
      t.alg.isRSA = false →
      verifyAppleIDToken clientID keys now t expectedNonce = .error .badMethod) ∧
    (∀ (clientID : String) (keys : String → Option String) (now : Int)
      (t : IdJwt GoogleClaims),
      t.alg.isRSA = false →
      verifyGoogleIDToken clientID keys now t = .error .badMethod) := by
  constructor
  · intro clientID keys now t expectedNonce h
    simp [verifyAppleIDToken, h]
  · intro clientID keys now t h
    simp [verifyGoogleIDToken, h]

/-- Claim C5 amended witness: an unsigned alg-none assertion is rejected
with the bad-method error by the Apple verifier. -/
theorem c5_non_rsa_alg_rejected_amended_witness :
    (⟨JwtAlg.noAlg, some "kid1", rs384Claims, none⟩ : IdJwt AppleClaims).alg.isRSA
      = false ∧
    verifyAppleIDToken "client1" demoKeys 0
      ⟨JwtAlg.noAlg, some "kid1", rs384Claims, none⟩ "n1" = .error .badMethod :=
  ⟨rfl, c5_non_rsa_alg_rejected_amended.1 "client1" demoKeys 0 _ "n1" rfl⟩

/-- A Redis string entry: value plus absolute expiry instant (SET with TTL
always attaches an expiry in this codebase). -/
structure RedisEntry where
  value : String
  expireAt : Int
  deriving DecidableEq

/-- The Redis keyspace as an association list; an entry is visible only
before its expiry instant. -/
abbrev RedisDb := List (String × RedisEntry)

/-- GET/EXISTS view of the keyspace at instant `now`: expired entries are
gone. -/
def redisLookup : RedisDb → Int → String → Option RedisEntry
  | [], _, _ => none
  | (k, e) :: rest, now, key =>
      if k = key then (if now < e.expireAt then some e else none)
      else redisLookup rest now key

/-- SET key value ttl: upsert of the entry with a fresh expiry. -/
def redisSet (db : RedisDb) (key value : String) (expireAt : Int) : RedisDb :=
  (key, ⟨value, expireAt⟩) :: db.filter (fun p => decide (p.1 ≠ key))

/-- KeyBuilder.RefreshToken: refresh:userid:tokenid (pkg/redis/key_builder). -/
def keyRefreshToken (userID tokenID : String) : String :=
  "refresh:" ++ userID ++ ":" ++ tokenID

/-- KeyBuilder.BlacklistToken: blacklist:tokenid. -/
def keyBlacklistToken (tokenID : String) : String := "blacklist:" ++ tokenID

/-- Error of the Redis token store. -/
inductive RedisErr
  | alreadyExpired
  deriving DecidableEq

/-- redis.TokenRepository.StoreRefreshToken (pkg/redis/token_repository.go):
ttl = time until expiresAt; non-positive ttl is the already-expired error;
otherwise one SET of the token hash under refresh:userid:tokenid. -/
def redisStoreRefreshToken (db : RedisDb) (now : Int) (userID : Int)
    (tokenID tokenHash : String) (expiresAt : Int) : Except RedisErr RedisDb :=
  let key := keyRefreshToken (toString userID) tokenID
  let ttl := expiresAt - now
  if ttl ≤ 0 then .error .alreadyExpired
  else .ok (redisSet db key tokenHash (now + ttl))

theorem redisLookup_set_self (db : RedisDb) (now : Int) (key value : String)
    (e : Int) :
    redisLookup (redisSet db key value e) now key
      = if now < e then some ⟨value, e⟩ else none := by
  simp [redisSet, redisLookup]

/-- Claim C6 counterexample: the durable (Postgres) session store accepts a
refresh token whose expiresAt (-100) is already in the past (≤ now = 0),
inserting the row and returning success instead of an already-expired
error — StoreRefreshToken there has no expiry check at all. -/
theorem c6_pg_store_accepts_expired_cex :
    (-100 : Int) ≤ 0 ∧
    pgStoreRefreshToken [] 5 rotDemoToken (-100)
      = .ok [(rotDemoToken, ⟨5, -100, none, none⟩)] :=
  ⟨by decide, by decide⟩

/-- Claim C6 (amended): the Redis mirror's StoreRefreshToken fails with the
already-expired error (writing nothing) when expiresAt ≤ now, and for
expiresAt > now sets exactly one entry — keyed by user id and token id,
holding the token's hash, expiring at expiresAt; the durable Postgres
StoreRefreshToken checks no expiry: it inserts exactly one row keyed by
the token's hash for any expiresAt. -/
theorem c6_store_refresh_amended :
    (∀ (db : RedisDb) (now userID : Int) (tokenID tokenHash : String)
      (expiresAt : Int),
      (expiresAt ≤ now →
        redisStoreRefreshToken db now userID tokenID tokenHash expiresAt
          = .error .alreadyExpired) ∧
      (now < expiresAt →
        redisStoreRefreshToken db now userID tokenID tokenHash expiresAt
          = .ok (redisSet db (keyRefreshToken (toString userID) tokenID)
              tokenHash expiresAt))) ∧
    (∀ (db : PgDb) (userID : Int) (token : SelfJwt) (expiresAt : Int),
      pgLookup db token = none →
      pgStoreRefreshToken db userID token expiresAt
        = .ok ((token, ⟨userID, expiresAt, none, none⟩) :: db)) := by
  constructor
  · intro db now userID tokenID tokenHash expiresAt
    constructor
    · intro h
      simp only [redisStoreRefreshToken]
      rw [if_pos (by omega)]
    · intro h
      simp only [redisStoreRefreshToken]
      rw [if_neg (by omega)]
      have harith : now + (expiresAt - now) = expiresAt := by omega
      rw [harith]
  · intro db userID token expiresAt h
    simp [pgStoreRefreshToken, h]

/-- Claim C6 amended witness: at now = 5 an entry expiring at 0 is refused
by the Redis store with the already-expired error. -/
theorem c6_store_refresh_amended_witness :
    (0 : Int) ≤ 5 ∧
    redisStoreRefreshToken [] 5 9 "tid" "hash" 0 = .error .alreadyExpired :=
  ⟨by decide, (c6_store_refresh_amended.1 [] 5 9 "tid" "hash" 0).1 (by decide)⟩

/-- Minimum blacklist TTL: 100 milliseconds, the safety margin of
pkg/redis/blacklist_repository.go. -/
def minBlacklistTTL : Int := 100

/-- BlacklistRepository.AddToBlacklist: ttl = time until expiresAt; an
already-expired token is not stored at all; a ttl below the 100ms margin is
raised to the margin; one SET of the marker "1". -/
def addToBlacklist (db : RedisDb) (now : Int) (tokenID : String)
    (expiresAt : Int) : RedisDb :=
  let key := keyBlacklistToken tokenID
  let ttl := expiresAt - now
  if ttl ≤ 0 then db
  else
    let ttl2 := if ttl < minBlacklistTTL then minBlacklistTTL else ttl
    redisSet db key "1" (now + ttl2)

/-- BlacklistRepository.IsBlacklisted: EXISTS on the blacklist key. -/
def isBlacklisted (db : RedisDb) (now : Int) (tokenID : String) : Bool :=
  (redisLookup db now (keyBlacklistToken tokenID)).isSome

/-- Claim C7 counterexample: a token expiring at 50 is blacklisted at 0;
the entry is still present at instant 70, after the token's own expiry —
because the 100ms minimum TTL makes the entry outlive the token. -/
theorem c7_blacklist_outlives_token_cex :
    (50 : Int) < 70 ∧
    isBlacklisted (addToBlacklist [] 0 "tid1" 50) 70 "tid1" = true :=
  ⟨by decide, by decide⟩

/-- Claim C7 (amended): AddToBlacklist stores nothing when the token is
already expired; otherwise the entry expires at
now + max(expiresAt - now, 100ms) — thus no later than
max(expiresAt, now + 100ms), outliving the token by at most the 100ms
minimum margin — and IsBlacklisted(tokenID) is true at every instant from
the call until that expiry and false afterwards. -/
theorem c7_blacklist_ttl_amended (db : RedisDb) (now : Int) (tokenID : String)
    (expiresAt : Int) :
    (expiresAt ≤ now → addToBlacklist db now tokenID expiresAt = db) ∧
    (now < expiresAt →
      (∀ t : Int, now ≤ t → t < now + max (expiresAt - now) minBlacklistTTL →
        isBlacklisted (addToBlacklist db now tokenID expiresAt) t tokenID = true) ∧
      (∀ t : Int, now + max (expiresAt - now) minBlacklistTTL ≤ t →
        isBlacklisted (addToBlacklist db now tokenID expiresAt) t tokenID = false) ∧
      now + max (expiresAt - now) minBlacklistTTL
        ≤ max expiresAt (now + minBlacklistTTL)) := by
  constructor
  · intro h
    simp only [addToBlacklist]
    rw [if_pos (by omega)]
  · intro h
    have hmax : (if expiresAt - now < minBlacklistTTL then minBlacklistTTL
        else expiresAt - now) = max (expiresAt - now) minBlacklistTTL := by
      by_cases hab : expiresAt - now < minBlacklistTTL
      · rw [if_pos hab, max_eq_right (le_of_lt hab)]
      · rw [if_neg hab, max_eq_left (not_lt.mp hab)]
    have hA : addToBlacklist db now tokenID expiresAt
        = redisSet db (keyBlacklistToken tokenID) "1"
            (now + max (expiresAt - now) minBlacklistTTL) := by
      simp only [addToBlacklist]
      rw [if_neg (by omega), hmax]
    refine ⟨?_, ?_, ?_⟩
    · intro t h1 h2
      rw [hA]
      simp only [isBlacklisted, redisLookup_set_self]
      rw [if_pos h2]
      rfl
    · intro t h1
      rw [hA]
      simp only [isBlacklisted, redisLookup_set_self]
      rw [if_neg (not_lt.mpr h1)]
      rfl
    · simp only [minBlacklistTTL]
      omega

/-- Claim C7 amended witness: a token expiring at 500, blacklisted at 0, is
reported blacklisted at instant 0. -/
theorem c7_blacklist_ttl_amended_witness :
    (0 : Int) < 500 ∧
    isBlacklisted (addToBlacklist [] 0 "tid2" 500) 0 "tid2" = true :=
  ⟨by decide,
    ((c7_blacklist_ttl_amended [] 0 "tid2" 500).2 (by decide)).1 0 (le_refl 0)
      (by decide)⟩

/-- One SCAN response from the store: a batch of matching keys and the next
cursor (0 signals completion). -/
structure ScanResp where
  keys : List String
  next : Nat
  deriving DecidableEq

/-- How a DeleteAllUserTokens call ends. -/
inductive DelOutcome
  | completed
  | cancelled
  | iterLimitExceeded
  deriving DecidableEq

/-- Result of the bulk-invalidation loop: the outcome, every key deleted (in
deletion order), and the SCAN requests issued as (cursor, count) pairs. -/
structure DelResult where
  outcome : DelOutcome
  deleted : List String
  scans : List (Nat × Nat)
  deriving DecidableEq

/-- SCAN count hint: 50 keys per batch (pkg/redis/token_repository.go). -/
def scanBatchSize : Nat := 50

/-- Iteration cap of the scan loop: 1000 (pkg/redis/token_repository.go). -/
def maxScanIterations : Nat := 1000

/-- The loop of TokenRepository.DeleteAllUserTokens: each pass first checks
ctx.Done(), then the iteration cap, then issues SCAN(cursor, pattern, 50),
deletes the returned batch, and stops when the cursor comes back 0.  `resp`
is the store's response to the i-th call at the presented cursor,
`cancelled` the caller's context state before each pass, `fuel` the number
of scan calls the cap still allows. -/
def deleteLoop (resp : Nat → Nat → ScanResp) (cancelled : Nat → Bool) :
    Nat → Nat → Nat → List String → List (Nat × Nat) → DelResult
  | 0, idx, _, deleted, scans =>
      if cancelled idx then ⟨.cancelled, deleted, scans⟩
      else ⟨.iterLimitExceeded, deleted, scans⟩
  | fuel + 1, idx, cursor, deleted, scans =>
      if cancelled idx then ⟨.cancelled, deleted, scans⟩
      else
        let r := resp idx cursor
        if r.next = 0 then
          ⟨.completed, deleted ++ r.keys, scans ++ [(cursor, scanBatchSize)]⟩
        else
          deleteLoop resp cancelled fuel (idx + 1) r.next (deleted ++ r.keys)
            (scans ++ [(cursor, scanBatchSize)])

/-- TokenRepository.DeleteAllUserTokens: run the loop from cursor 0 with the
full iteration budget. -/
def deleteAllUserTokens (resp : Nat → Nat → ScanResp) (cancelled : Nat → Bool) :
    DelResult :=
  deleteLoop resp cancelled maxScanIterations 0 0 [] []

theorem deleteLoop_scans_bound (resp : Nat → Nat → ScanResp)
    (cancelled : Nat → Bool) :
    ∀ fuel idx cursor deleted scans,
      (deleteLoop resp cancelled fuel idx cursor deleted scans).scans.length
        ≤ scans.length + fuel := by
  intro fuel
  induction fuel with
  | zero =>
      intro idx cursor deleted scans
      simp only [deleteLoop]
      split <;> simp
  | succ n ih =>
      intro idx cursor deleted scans
      simp only [deleteLoop]
      split
      · simp
      · split
        · simp
        · calc (deleteLoop resp cancelled n (idx + 1) (resp idx cursor).next
                (deleted ++ (resp idx cursor).keys)
                (scans ++ [(cursor, scanBatchSize)])).scans.length
              ≤ (scans ++ [(cursor, scanBatchSize)]).length + n := ih ..
            _ = scans.length + (n + 1) := by simp; omega

theorem deleteLoop_scans_count (resp : Nat → Nat → ScanResp)
    (cancelled : Nat → Bool) :
    ∀ fuel idx cursor deleted scans,
      (∀ s ∈ scans, s.2 = scanBatchSize) →
      ∀ s ∈ (deleteLoop resp cancelled fuel idx cursor deleted scans).scans,
        s.2 = scanBatchSize := by
  intro fuel
  induction fuel with
  | zero =>
      intro idx cursor deleted scans hsc
      simp only [deleteLoop]
      split <;> exact hsc
  | succ n ih =>
      intro idx cursor deleted scans hsc
      simp only [deleteLoop]
      split
      · exact hsc
      · split
        · intro s hs
          rcases List.mem_append.mp hs with h | h
          · exact hsc s h
          · simp at h
            rw [h]
        · refine ih (idx + 1) (resp idx cursor).next
            (deleted ++ (resp idx cursor).keys)
            (scans ++ [(cursor, scanBatchSize)]) ?_
          intro s hs
          rcases List.mem_append.mp hs with h | h
          · exact hsc s h
          · simp at h
            rw [h]

theorem deleteLoop_cancel_first (resp : Nat → Nat → ScanResp)
    (cancelled : Nat → Bool) :
    ∀ fuel idx cursor deleted scans, cancelled idx = true →
      deleteLoop resp cancelled fuel idx cursor deleted scans
        = ⟨.cancelled, deleted, scans⟩ := by
  intro fuel idx cursor deleted scans h
  cases fuel <;> simp only [deleteLoop] <;> rw [if_pos h]

theorem deleteLoop_deleted_mono (resp : Nat → Nat → ScanResp)
    (cancelled : Nat → Bool) :
    ∀ fuel idx cursor deleted scans, ∃ extra,
      (deleteLoop resp cancelled fuel idx cursor deleted scans).deleted
        = deleted ++ extra := by
  intro fuel
  induction fuel with
  | zero =>
      intro idx cursor deleted scans
      refine ⟨[], ?_⟩
      simp only [deleteLoop]
      split <;> simp
  | succ n ih =>
      intro idx cursor deleted scans
      simp only [deleteLoop]
      split
      · exact ⟨[], by simp⟩
      · split
        · exact ⟨(resp idx cursor).keys, rfl⟩
        · obtain ⟨extra, hx⟩ := ih (idx + 1) (resp idx cursor).next
            (deleted ++ (resp idx cursor).keys) (scans ++ [(cursor, scanBatchSize)])
          exact ⟨(resp idx cursor).keys ++ extra, by rw [hx, List.append_assoc]⟩

theorem deleteLoop_cap_exceeded (resp : Nat → Nat → ScanResp)
    (cancelled : Nat → Bool) (hnc : ∀ i, cancelled i = false)
    (hnx : ∀ i c, (resp i c).next ≠ 0) :
    ∀ fuel idx cursor deleted scans,
      (deleteLoop resp cancelled fuel idx cursor deleted scans).outcome
        = .iterLimitExceeded ∧
      (deleteLoop resp cancelled fuel idx cursor deleted scans).scans.length
        = scans.length + fuel := by
  intro fuel
  induction fuel with
  | zero =>
      intro idx cursor deleted scans
      simp only [deleteLoop]
      rw [if_neg (by simp [hnc idx])]
      simp
  | succ n ih =>
      intro idx cursor deleted scans
      simp only [deleteLoop]
      rw [if_neg (by simp [hnc idx]), if_neg (hnx idx cursor)]
      obtain ⟨h1, h2⟩ := ih (idx + 1) (resp idx cursor).next
        (deleted ++ (resp idx cursor).keys) (scans ++ [(cursor, scanBatchSize)])
      refine ⟨h1, ?_⟩
      rw [h2]
      simp
      omega

/-- Claim C8: DeleteAllUserTokens terminates for every sequence of scan
responses (the loop is a total function of the response sequence): it
issues at most 1000 scans, each requesting batches of 50 keys; caller
cancellation is honoured before each batch; when the store never signals
completion within the cap the call ends with the iteration-limit error
after exactly 1000 scans; and keys deleted by earlier batches are never
resurrected — the deleted accumulator only ever grows. -/
theorem c8_delete_all_bounded (resp : Nat → Nat → ScanResp)
    (cancelled : Nat → Bool) :
    (deleteAllUserTokens resp cancelled).scans.length ≤ maxScanIterations ∧
    (∀ s ∈ (deleteAllUserTokens resp cancelled).scans, s.2 = scanBatchSize) ∧
    (∀ fuel idx cursor deleted scans, cancelled idx = true →
      deleteLoop resp cancelled fuel idx cursor deleted scans
        = ⟨.cancelled, deleted, scans⟩) ∧
    ((∀ i, cancelled i = false) → (∀ i c, (resp i c).next ≠ 0) →
      (deleteAllUserTokens resp cancelled).outcome = .iterLimitExceeded ∧
      (deleteAllUserTokens resp cancelled).scans.length = maxScanIterations) ∧
    (∀ fuel idx cursor deleted scans, ∃ extra,
      (deleteLoop resp cancelled fuel idx cursor deleted scans).deleted
        = deleted ++ extra) := by
  refine ⟨?_, ?_, deleteLoop_cancel_first resp cancelled, ?_, deleteLoop_deleted_mono resp cancelled⟩
  · have := deleteLoop_scans_bound resp cancelled maxScanIterations 0 0 [] []
    simpa [deleteAllUserTokens] using this
  · intro s hs
    exact deleteLoop_scans_count resp cancelled maxScanIterations 0 0 [] []
      (by simp) s hs
  · intro hnc hnx
    have := deleteLoop_cap_exceeded resp cancelled hnc hnx maxScanIterations 0 0 [] []
    simpa [deleteAllUserTokens] using this

/-- A store whose scan never signals completion (always cursor 7). -/
def neverDoneResp : Nat → Nat → ScanResp := fun _ _ => ⟨["refresh:1:a"], 7⟩

/-- A caller context that is never cancelled. -/
def neverCancelled : Nat → Bool := fun _ => false

/-- Claim C8 witness: against a store that never completes and a caller
that never cancels, the call ends with the iteration-limit outcome. -/
theorem c8_delete_all_bounded_witness :
    (∀ i : Nat, neverCancelled i = false) ∧
    (∀ (i c : Nat), (neverDoneResp i c).next ≠ 0) ∧
    (deleteAllUserTokens neverDoneResp neverCancelled).outcome
      = DelOutcome.iterLimitExceeded :=
  ⟨fun _ => rfl, fun _ _ => by simp [neverDoneResp],
    ((c8_delete_all_bounded neverDoneResp neverCancelled).2.2.2.1
      (fun _ => rfl) (fun _ _ => by simp [neverDoneResp])).1⟩

/-- A Redis counter entry: the count and an optional absolute expiry (INCR
creates keys without an expiry; EXPIRE attaches one).  Times here are in
seconds, the granularity of EXPIRE/TTL. -/
structure RLEntry where
  count : Int
  expireAt : Option Int
  deriving DecidableEq

/-- The rate-limiter keyspace. -/
abbrev RLDb := List (String × RLEntry)

/-- View of the counter keyspace at instant `now`: an entry with an expiry
is visible only before it; an entry without one persists. -/
def rlLookup : RLDb → Int → String → Option RLEntry
  | [], _, _ => none
  | (k, e) :: rest, now, key =>
      if k = key then
        (match e.expireAt with
         | some t => if now < t then some e else none
         | none => some e)
      else rlLookup rest now key

/-- Write-back of a counter entry. -/
def rlSet (db : RLDb) (key : String) (e : RLEntry) : RLDb :=
  (key, e) :: db.filter (fun p => decide (p.1 ≠ key))

/-- rateLimitScript (pkg/redis/cache_repository.go), executed atomically by
Redis in a single EVAL round trip: INCR the key (creating it at count 1
with no expiry), EXPIRE it for the window iff the new count is 1, read the
remaining TTL, and return count and TTL together.  One state transition
models the one indivisible script execution. -/
def rateLimitScript (db : RLDb) (now : Int) (key : String) (windowSecs : Int) :
    (Int × Int) × RLDb :=
  let prev := rlLookup db now key
  let current : Int :=
    match prev with
    | none => 1
    | some e => e.count + 1
  let inherited : Option Int :=
    match prev with
    | none => none
    | some e => e.expireAt
  let expiry : Option Int :=
    if current = 1 then some (now + windowSecs) else inherited
  let ttl : Int :=
    match expiry with
    | some t => t - now
    | none => -1
  ((current, ttl), rlSet db key ⟨current, expiry⟩)

/-- RateLimitRepository.incrementRequest: one EVAL of the script, then
resetTime = now + returned TTL (computed from the same atomic result). -/
def incrementRequest (db : RLDb) (now : Int) (key : String) (windowSecs : Int) :
    (Int × Int) × RLDb :=
  let r := rateLimitScript db now key windowSecs
  ((r.1.1, now + r.1.2), r.2)

theorem rlLookup_set_self (db : RLDb) (now : Int) (key : String) (e : RLEntry) :
    rlLookup (rlSet db key e) now key
      = match e.expireAt with
        | some t => if now < t then some e else none
        | none => some e := by
  simp [rlSet, rlLookup]

theorem rlLookup_some_visible {db : RLDb} {now : Int} {key : String}
    {e : RLEntry} (h : rlLookup db now key = some e) :
    ∀ t, e.expireAt = some t → now < t := by
  induction db with
  | nil => exact absurd h (by simp [rlLookup])
  | cons hd rest ih =>
      obtain ⟨k, he⟩ := hd
      simp only [rlLookup] at h
      split at h
      · split at h
        · rename_i t ht
          split at h
          · intro u hu
            rename_i hlt
            have : he = e := Option.some.inj h
            rw [this] at ht
            rw [ht] at hu
            exact (Option.some.inj hu) ▸ hlt
          · exact absurd h (by simp)
        · rename_i ht
          intro u hu
          have : he = e := Option.some.inj h
          rw [this] at ht
          rw [ht] at hu
          exact absurd hu (by simp)
      · exact ih h

/-- Claim C9: in the atomic rate-limit script, the increment that observes
count 1 (the first of the window) is the one that sets the window TTL; an
increment observing any later count leaves the stored expiry unchanged;
and the returned (count, remaining TTL) both describe the post-state of
that same single script execution. -/
theorem c9_rate_limit_window (db : RLDb) (now : Int) (key : String)
    (w : Int) (hw : 0 < w) :
    (rlLookup db now key = none →
      (rateLimitScript db now key w).1 = (1, w) ∧
      rlLookup (rateLimitScript db now key w).2 now key
        = some ⟨1, some (now + w)⟩) ∧
    (∀ e, rlLookup db now key = some e → 1 ≤ e.count →
      (rateLimitScript db now key w).1.1 = e.count + 1 ∧
      rlLookup (rateLimitScript db now key w).2 now key
        = some ⟨e.count + 1, e.expireAt⟩) ∧
    (∃ exp, rlLookup (rateLimitScript db now key w).2 now key
        = some ⟨(rateLimitScript db now key w).1.1, exp⟩ ∧
      (exp = some (now + (rateLimitScript db now key w).1.2) ∨
        (exp = none ∧ (rateLimitScript db now key w).1.2 = -1))) := by
  refine ⟨?_, ?_, ?_⟩
  · intro h
    constructor
    · have harith : now + w - now = w := by omega
      simp [rateLimitScript, h, harith]
    · simp [rateLimitScript, h, rlLookup_set_self,
        show now < now + w from by omega]
  · intro e he hcnt
    have hne : ¬ (e.count + 1 = 1) := by omega
    have hvis := rlLookup_some_visible he
    constructor
    · simp [rateLimitScript, he, hne]
    · cases hx : e.expireAt with
      | none => simp [rateLimitScript, he, hne, hx, rlLookup_set_self]
      | some t =>
          simp [rateLimitScript, he, hne, hx, rlLookup_set_self, hvis t hx]
  · cases he : rlLookup db now key with
    | none =>
        refine ⟨some (now + w), ?_, Or.inl ?_⟩
        · simp [rateLimitScript, he, rlLookup_set_self,
            show now < now + w from by omega]
        · simp [rateLimitScript, he]
    | some e =>
        have hvis := rlLookup_some_visible he
        by_cases hc : e.count + 1 = 1
        · refine ⟨some (now + w), ?_, Or.inl ?_⟩
          · simp [rateLimitScript, he, hc, rlLookup_set_self,
              show now < now + w from by omega]
          · simp [rateLimitScript, he, hc]
        · cases hx : e.expireAt with
          | none =>
              exact ⟨none,
                by simp [rateLimitScript, he, hc, hx, rlLookup_set_self],
                Or.inr ⟨rfl, by simp [rateLimitScript, he, hc, hx]⟩⟩
          | some t =>
              refine ⟨some t, ?_, Or.inl ?_⟩
              · simp [rateLimitScript, he, hc, hx, rlLookup_set_self,
                  hvis t hx]
              · simp [rateLimitScript, he, hc, hx]

/-- Claim C9 witness: the first increment on a fresh key with a 60s window
returns count 1 and TTL 60, and leaves an entry expiring at now + 60. -/
theorem c9_rate_limit_window_witness :
    (0 : Int) < 60 ∧ rlLookup [] 0 "ratelimit:user:1" = none ∧
    (rateLimitScript [] 0 "ratelimit:user:1" 60).1 = (1, 60) ∧
    rlLookup (rateLimitScript [] 0 "ratelimit:user:1" 60).2 0 "ratelimit:user:1"
      = some ⟨1, some 60⟩ :=
  ⟨by decide, rfl,
    ((c9_rate_limit_window [] 0 "ratelimit:user:1" 60 (by decide)).1 rfl).1,
    ((c9_rate_limit_window [] 0 "ratelimit:user:1" 60 (by decide)).1 rfl).2⟩

/-- strings.TrimSpace on the character list: whitespace stripped from both
ends. -/
def trimChars (cs : List Char) : List Char :=
  ((cs.dropWhile Char.isWhitespace).reverse.dropWhile Char.isWhitespace).reverse

/-- The character class of the email regex's local part:
a-zA-Z0-9 . _ % + - (pkg/validator). -/
def isEmailLocalChar (c : Char) : Bool :=
  c.isAlpha || c.isDigit || c == '.' || c == '_' || c == '%' || c == '+' || c == '-'

/-- The character class of the email regex's domain part: a-zA-Z0-9 . - . -/
def isEmailDomainChar (c : Char) : Bool :=
  c.isAlpha || c.isDigit || c == '.' || c == '-'

/-- Split at the single at-sign: the regex's classes exclude the at-sign on
both sides, so a match requires exactly one occurrence. -/
def splitAtSign : List Char → Option (List Char × List Char)
  | [] => none
  | c :: rest =>
      if c = '@' then
        (if rest.contains '@' then none else some ([], rest))
      else
        match splitAtSign rest with
        | some (l, d) => some (c :: l, d)
        | none => none

/-- Scan of the domain part for a dot split with a nonempty domain-class
prefix and an all-alphabetic suffix of length at least 2 — the matching
semantics of the domain fragment of the email regex. -/
def domainScan : List Char → List Char → Bool
  | _, [] => false
  | pre, c :: rs =>
      (c == '.' && !pre.isEmpty && pre.all isEmailDomainChar
        && decide (2 ≤ rs.length) && rs.all Char.isAlpha)
      || domainScan (pre ++ [c]) rs

/-- Full-anchor match of the email regex of pkg/validator:
local+ at-sign domain+ dot alpha-at-least-2. -/
def emailListMatch (cs : List Char) : Bool :=
  match splitAtSign cs with
  | some (l, d) => !l.isEmpty && l.all isEmailLocalChar && domainScan [] d
  | none => false

/-- validator.ValidateEmail: required, trimmed length in [3, 255], and the
regex match; errors are the code's messages. -/
def validateEmail (email : String) : Option String :=
  if email = "" then some "email is required"
  else
    let e := trimChars email.toList
    if 255 < e.length then some "email is too long"
    else if e.length < 3 then some "email is too short"
    else if !emailListMatch e then some "invalid email format"
    else none

/-- validator.ValidateAppleID: required, trimmed length in [10, 255]. -/
def validateAppleID (appleID : String) : Option String :=
  if appleID = "" then some "apple_id is required"
  else
    let a := trimChars appleID.toList
    if 255 < a.length then some "apple_id is too long"
    else if a.length < 10 then some "apple_id is too short"
    else none

/-- A users row (migrations 001, 004, 005: id, nullable apple_id and
google_id, unique email, timestamps). -/
structure UserRow where
  id : Int
  appleID : Option String
  googleID : Option String
  email : String
  createdAt : Int
  updatedAt : Int
  deriving DecidableEq

/-- The users table; emails are unique (migration 005). -/
abbrev UserDb := List UserRow

/-- Row lookup by the unique email. -/
def findByEmail : UserDb → String → Option UserRow
  | [], _ => none
  | r :: rest, email => if r.email = email then some r else findByEmail rest email

/-- UPDATE of the row with the given email. -/
def setByEmail (db : UserDb) (email : String) (row : UserRow) : UserDb :=
  db.map (fun r => if r.email = email then row else r)

/-- Errors of the user repository upserts. -/
inductive UserErr
  | invalidInput (msg : String)
  | uniqueViolation
  deriving DecidableEq

/-- UserRepository.CreateOrGet: validate the inputs, then the atomic upsert
INSERT ... ON CONFLICT (email) DO UPDATE SET apple_id =
COALESCE(users.apple_id, EXCLUDED.apple_id), updated_at = CURRENT_TIMESTAMP
RETURNING the row.  A fresh insert colliding with another row's UNIQUE
apple_id (migration 001) raises the constraint error; nextId models the id
sequence. -/
def createOrGet (db : UserDb) (now : Int) (nextId : Int)
    (appleID email : String) : Except UserErr (UserRow × UserDb) :=
  match validateAppleID appleID with
  | some m => .error (.invalidInput m)
  | none =>
  match validateEmail email with
  | some m => .error (.invalidInput m)
  | none =>
  match findByEmail db email with
  | some row =>
      let row' : UserRow :=
        { row with
          appleID := match row.appleID with
            | some a => some a
            | none => some appleID,
          updatedAt := now }
      .ok (row', setByEmail db email row')
  | none =>
      if db.any (fun r => decide (r.appleID = some appleID)) then
        .error .uniqueViolation
      else
        let row : UserRow := ⟨nextId, some appleID, none, email, now, now⟩
        .ok (row, db ++ [row])

/-- UserRepository.CreateOrGetWithGoogle: the same upsert with google_id and
COALESCE(users.google_id, EXCLUDED.google_id).  The google-id validator's
source file is not part of the repository snapshot, so the function is
parameterized over it. -/
def createOrGetWithGoogle (gvalid : String → Option String) (db : UserDb)
    (now : Int) (nextId : Int) (googleID email : String) :
    Except UserErr (UserRow × UserDb) :=
  match gvalid googleID with
  | some m => .error (.invalidInput m)
  | none =>
  match validateEmail email with
  | some m => .error (.invalidInput m)
  | none =>
  match findByEmail db email with
  | some row =>
      let row' : UserRow :=
        { row with
          googleID := match row.googleID with
            | some g => some g
            | none => some googleID,
          updatedAt := now }
      .ok (row', setByEmail db email row')
  | none =>
      if db.any (fun r => decide (r.googleID = some googleID)) then
        .error .uniqueViolation
      else
        let row : UserRow := ⟨nextId, none, some googleID, email, now, now⟩
        .ok (row, db ++ [row])

/-- Claim C10: the account-linking upserts never overwrite an existing
provider identity.  When a row with the email exists and already carries a
provider id, CreateOrGet (resp. CreateOrGetWithGoogle) returns that row
with its stored provider id unchanged — the caller-supplied id is
discarded and only updated_at changes; and when the stored provider id is
null it is written from the call's argument. -/
theorem c10_upsert_preserves_provider_id :
    (∀ (db : UserDb) (now nextId : Int) (appleID email : String)
      (row : UserRow) (a : String),
      validateAppleID appleID = none → validateEmail email = none →
      findByEmail db email = some row → row.appleID = some a →
      createOrGet db now nextId appleID email
        = .ok ({ row with updatedAt := now },
            setByEmail db email { row with updatedAt := now })) ∧
    (∀ (gvalid : String → Option String) (db : UserDb) (now nextId : Int)
      (googleID email : String) (row : UserRow) (g : String),
      gvalid googleID = none → validateEmail email = none →
      findByEmail db email = some row → row.googleID = some g →
      createOrGetWithGoogle gvalid db now nextId googleID email
        = .ok ({ row with updatedAt := now },
            setByEmail db email { row with updatedAt := now })) ∧
    (∀ (db : UserDb) (now nextId : Int) (appleID email : String)
      (row : UserRow),
      validateAppleID appleID = none → validateEmail email = none →
      findByEmail db email = some row → row.appleID = none →
      createOrGet db now nextId appleID email
        = .ok ({ row with appleID := some appleID, updatedAt := now },
            setByEmail db email
              { row with appleID := some appleID, updatedAt := now })) := by
  refine ⟨?_, ?_, ?_⟩
  · intro db now nextId appleID email row a hva hve hfind ha
    simp only [createOrGet, hva, hve, hfind, ha]
  · intro gvalid db now nextId googleID email row g hvg hve hfind hg
    simp only [createOrGetWithGoogle, hvg, hve, hfind, hg]
  · intro db now nextId appleID email row hva hve hfind ha
    simp only [createOrGet, hva, hve, hfind, ha]

/-- The existing linked user row used by the C10 witness. -/
def linkedRow : UserRow := ⟨1, some "appleSub001", none, "a@x.com", 0, 0⟩

/-- Claim C10 witness: upserting apple id otherSub9999 onto the existing
row keeps the stored apple id and only bumps updated_at. -/
theorem c10_upsert_preserves_provider_id_witness :
    validateAppleID "otherSub9999" = none ∧ validateEmail "a@x.com" = none ∧
    findByEmail [linkedRow] "a@x.com" = some linkedRow ∧
    createOrGet [linkedRow] 5 2 "otherSub9999" "a@x.com"
      = .ok (⟨1, some "appleSub001", none, "a@x.com", 0, 5⟩,
          [⟨1, some "appleSub001", none, "a@x.com", 0, 5⟩]) :=
  ⟨by decide, by decide, by decide,
    (c10_upsert_preserves_provider_id.1 [linkedRow] 5 2 "otherSub9999"
      "a@x.com" linkedRow "appleSub001" (by decide) (by decide) (by decide)
      (by decide)).trans (by decide)⟩
